import Mathlib

/-!
Verification of the IronMQ backend adapter of go-msgqueue/msgqueue
(src/ironmq/queue.go), with the Batcher and the Processor fetch loop of
the same repository modelled from the specification where their sources
are not available.

Go errors are modelled as an inductive type; a Go function returning
`error` is modelled as returning `Option GoErr` (`none` = nil error) and
a function returning `(T, error)` as `Except GoErr T`.  Calls into the
IronMQ client are modelled by passing the backend responses as a
function of the call index, so that theorems quantify over every
possible backend behaviour.
-/

namespace IronMQ

/-- Errors surfaced by the IronMQ Go client.  `httpError s m` models a
value satisfying the `api.HTTPResponseError` interface with
`StatusCode() = s` and `Error() = m`; `netTimeout` models a network
timeout (a `net.Error`, which is not an `api.HTTPResponseError`);
`other` models any remaining error value together with its message. -/
inductive GoErr where
  | httpError (status : Nat) (msg : String)
  | netTimeout
  | other (msg : String)
deriving DecidableEq, Repr

/-- Retry guard of `retry` in src/ironmq/queue.go: the loop `continue`s
only when the error is an `api.HTTPResponseError` whose status code is
at least 500. -/
def isRetryable : GoErr → Bool
  | .httpError s _ => 500 ≤ s
  | _ => false

/-- Embedding of `retry` from src/ironmq/queue.go: call `fn` up to 3
times, return nil as soon as a call succeeds, `continue` only on an
HTTP response error with status at least 500, and otherwise return the
error of the last call.  `fn i` is the outcome of the (i+1)-th
invocation of the Go closure; the result pairs the returned error with
the number of invocations made. -/
def retry (fn : Nat → Option GoErr) : Option GoErr × Nat :=
  match fn 0 with
  | none => (none, 1)
  | some e0 =>
    if isRetryable e0 then
      match fn 1 with
      | none => (none, 2)
      | some e1 =>
        if isRetryable e1 then (fn 2, 3)
        else (some e1, 2)
    else (some e0, 1)

/-- Classification `BackendTransient` of the specification error
taxonomy (section 7): an HTTP 5xx response or a network timeout. -/
def BackendTransient : GoErr → Prop
  | .httpError s _ => 500 ≤ s
  | .netTimeout => True
  | .other _ => False

/-- Embedding of the `msgqueue.Message` fields used by the IronMQ
adapter.  `delay` is a Go `time.Duration`, an `int64` number of
nanoseconds, modelled as `Int`. -/
structure Message where
  id : String := ""
  name : String := ""
  body : String := ""
  reservationId : String := ""
  reservedCount : Nat := 0
  delay : Int := 0
  compress : Bool := false
deriving DecidableEq, Repr

/-- Embedding of the `mq.Message` fields of the IronMQ client used by
the adapter. -/
structure MqMessage where
  id : String := ""
  body : String := ""
  reservationId : String := ""
  reservedCount : Nat := 0
  delay : Int := 0
deriving DecidableEq, Repr

/-- Embedding of the `msgqueue.Options` fields used by the adapter
code under verification.  Timeouts are Go durations in nanoseconds. -/
structure Options where
  name : String := ""
  reservationTimeout : Int := 0
  waitTimeout : Int := 0
  compress : Bool := false
deriving DecidableEq, Repr

/-- Nanoseconds in one second: the Go constant `time.Second`. -/
def second : Int := 1000000000

/-- Checks that the character list starts with the given pattern. -/
def charsStartWith : List Char → List Char → Bool
  | _, [] => true
  | [], _ :: _ => false
  | c :: cs, p :: ps => c = p && charsStartWith cs ps

/-- Checks that the pattern occurs inside the character list. -/
def charsContain (pat : List Char) : List Char → Bool
  | [] => pat.isEmpty
  | c :: rest => charsStartWith (c :: rest) pat || charsContain pat rest

/-- Embedding of Go `strings.Contains s pat`. -/
def strContains (s pat : String) : Bool :=
  charsContain pat.toList s.toList

/-- Embedding of `splitDeleteBatch` from src/ironmq/queue.go: with the
constant `messagesLimit = 10`, a batch of at least 10 messages is
flushed whole and nothing is held back; a smaller batch is held back
whole and nothing is flushed. -/
def splitDeleteBatch (msgs : List Message) : List Message × List Message :=
  if 10 ≤ msgs.length then (msgs, [])
  else ([], msgs)

/-- Unwraps every message in order, stopping at the first failure: the
loop body of `deleteBatch` applying `msgutil.UnwrapMessage`. -/
def unwrapAll (unwrap : Message → Except GoErr Message) :
    List Message → Except GoErr (List Message)
  | [] => .ok []
  | m :: rest =>
    match unwrap m with
    | .error e => .error e
    | .ok m2 =>
      match unwrapAll unwrap rest with
      | .error e => .error e
      | .ok ms => .ok (m2 :: ms)

/-- Embedding of `deleteBatch` from src/ironmq/queue.go.  An empty
batch yields the error "ironmq: no messages to delete" and no backend
call.  Otherwise each message is unwrapped (`unwrap` models
`msgutil.UnwrapMessage`, whose source is not under src/), converted to
an `mq.Message` carrying only id and reservation id, and handed to
`DeleteReservedMessages` inside `retry`.  `backendDelete i` is the
outcome of the (i+1)-th `DeleteReservedMessages` call; the second
component of the result lists the payload of every backend call
made. -/
def deleteBatch (unwrap : Message → Except GoErr Message)
    (backendDelete : Nat → Option GoErr) (msgs : List Message) :
    Option GoErr × List (List MqMessage) :=
  if msgs.length = 0 then
    (some (GoErr.other "ironmq: no messages to delete"), [])
  else
    match unwrapAll unwrap msgs with
    | .error e => (some e, [])
    | .ok ms =>
      let mqMsgs := ms.map fun m =>
        ({ id := m.id, reservationId := m.reservationId } : MqMessage)
      let r := retry backendDelete
      (r.1, List.replicate r.2 mqMsgs)

/-- Embedding of `Queue.Delete` from src/ironmq/queue.go: the backend
`DeleteMessage` call (`backendDelete`, indexed by attempt) runs inside
`retry`; a final HTTP 404 response error is swallowed and reported as
success, any other final error is returned. -/
def Delete (backendDelete : Nat → Option GoErr) : Option GoErr :=
  match (retry backendDelete).1 with
  | none => none
  | some e =>
    match e with
    | .httpError s _ => if s = 404 then none else some e
    | _ => some e

/-- Embedding of `Queue.Release` from src/ironmq/queue.go: the delay of
the message is converted to whole seconds with the truncating Go
integer division `msg.Delay / time.Second` and passed to the backend
`ReleaseMessage` call inside `retry`.  `backendRelease secs i` is the
outcome of the (i+1)-th `ReleaseMessage` call carrying `secs`; the
second component of the result lists the seconds value carried by every
backend call made. -/
def Release (backendRelease : Int → Nat → Option GoErr) (msg : Message) :
    Option GoErr × List Int :=
  let secs := Int.tdiv msg.delay second
  let r := retry (backendRelease secs)
  (r.1, List.replicate r.2 secs)

/-- Result of one `ReserveN` call: the returned messages or error,
whether `createQueue` was invoked, and the count handed to the backend
`LongPoll` call. -/
structure ReserveResult where
  result : Except GoErr (List Message)
  createdQueue : Bool
  requested : Int
deriving Repr

/-- Capping of the requested count in `Queue.ReserveN`: the Go
statement `if n > 100 { n = 100 }`. -/
def effectiveCount (n : Int) : Int :=
  if n > 100 then 100 else n

/-- Embedding of `Queue.ReserveN` from src/ironmq/queue.go: the count
is capped at 100; the reservation and wait timeouts are converted to
whole seconds; on an HTTP 404 whose message contains "Message not
found" the call returns no messages and no error; on an HTTP 404 whose
message contains "Queue not found" the queue is created (the result of
`createQueue` is discarded) and the error is returned; every other
error is returned unchanged; on success each `mq.Message` is converted
to a `msgqueue.Message` carrying id, body, reservation id and reserved
count. -/
def ReserveN (longPoll : Int → Int → Int → Except GoErr (List MqMessage))
    (opt : Options) (n : Int) : ReserveResult :=
  let n := effectiveCount n
  let reservationSecs := Int.tdiv opt.reservationTimeout second
  let waitSecs := Int.tdiv opt.waitTimeout second
  match longPoll n reservationSecs waitSecs with
  | .error e =>
    match e with
    | .httpError s m =>
      if s = 404 then
        if strContains m "Message not found" then
          { result := .ok [], createdQueue := false, requested := n }
        else if strContains m "Queue not found" then
          { result := .error (.httpError s m), createdQueue := true, requested := n }
        else
          { result := .error (.httpError s m), createdQueue := false, requested := n }
      else
        { result := .error (.httpError s m), createdQueue := false, requested := n }
    | _ => { result := .error e, createdQueue := false, requested := n }
  | .ok mqMsgs =>
    { result := .ok (mqMsgs.map fun mm =>
        { id := mm.id, body := mm.body,
          reservationId := mm.reservationId,
          reservedCount := mm.reservedCount }),
      createdQueue := false, requested := n }

/-- One observed iteration of the Processor fetch loop: either a batch
was fetched or the iteration failed and backed off. -/
inductive FetchStep where
  | fetched (msgs : List Message)
  | backedOff (e : GoErr)
deriving DecidableEq, Repr

/-- Modelled from the spec: the Processor fetch loop (processor.go is
not under src/).  Section 4.4: a dedicated role repeatedly calls
`Queuer.ReserveN`; on `ReserveN` failure it applies a backoff and loops
again, so a failed reservation is always followed by another `ReserveN`
call while the processor runs.  `reserve i` is the result of the
(i+1)-th `ReserveN` call and `fuel` bounds the observed iterations. -/
def fetcherRun (reserve : Nat → ReserveResult) : Nat → Nat → List FetchStep
  | 0, _ => []
  | fuel + 1, i =>
    match (reserve i).result with
    | .error e => FetchStep.backedOff e :: fetcherRun reserve fuel (i + 1)
    | .ok msgs => FetchStep.fetched msgs :: fetcherRun reserve fuel (i + 1)

/-- Observable side effects of `Queue.CloseTimeout`. -/
inductive CloseAction where
  | stopProcessor
  | setSync (flag : Bool)
  | closeDelQueue
deriving DecidableEq, Repr

/-- Embedding of `Queue.CloseTimeout` from src/ironmq/queue.go: when a
processor exists (`q.p != nil`) it is stopped first and its error, if
any, becomes the first error; the delete batcher is then switched to
synchronous mode and the delete queue is closed unconditionally; the
close error is kept only when no earlier error occurred.  `stopErr` and
`closeErr` are the outcomes of `p.StopTimeout` and
`delQueue.CloseTimeout`; the result pairs the returned error with the
sequence of actions performed. -/
def CloseTimeout (hasProcessor : Bool) (stopErr closeErr : Option GoErr) :
    Option GoErr × List CloseAction :=
  let s1 : Option GoErr × List CloseAction :=
    if hasProcessor then (stopErr, [CloseAction.stopProcessor])
    else (none, [])
  let acts := s1.2 ++ [CloseAction.setSync true, CloseAction.closeDelQueue]
  let firstErr :=
    match s1.1 with
    | some e => some e
    | none => closeErr
  (firstErr, acts)

/-- Wrapping performed by `msgutil.WrapMessage` (msgutil is not under
src/), modelled as a constructor holding the original message. -/
structure WrappedMessage where
  inner : Message
deriving DecidableEq, Repr

/-- Embedding of `Queue.Add` from src/ironmq/queue.go.  `encodeArgs`
models `msg.EncodeArgs()` (msgqueue core, not under src/): it returns
the message with its body encoded, or a codec error.  On failure the
error is returned and nothing is staged.  On success the Compress flag
of the message is set from the queue options, the message is wrapped,
and the result of `q.addQueue.Add(msg)` is returned.  `stageAdd`
models the Add of the add-stage memory queue (memqueue, not under
src/), modelled from the spec (sections 4.2 and 8.5) over the list of
staged messages: it may stage the message and return nil, or fail, for
example with a duplicate-name or buffer-full error, returning the
state it leaves behind; its outcome is the outcome of `Queue.Add`. -/
def Add (encodeArgs : Message → Except GoErr Message)
    (stageAdd : WrappedMessage → List WrappedMessage →
      Option GoErr × List WrappedMessage)
    (opt : Options) (msg : Message) (addQueue : List WrappedMessage) :
    Option GoErr × List WrappedMessage :=
  match encodeArgs msg with
  | .error e => (some e, addQueue)
  | .ok encoded =>
    let encoded := { encoded with compress := opt.compress }
    stageAdd ⟨encoded⟩ addQueue

/-- Events observed by a batcher: a message added, or the flush timer
firing. -/
inductive BatchEvent where
  | add (m : Message)
  | timeout
deriving DecidableEq, Repr

/-- Modelled from the spec: one step of the Batcher (batcher.go is not
under src/).  Section 4.3: `Add(msg)` appends to the buffer and the
`splitter` decides the pair (flush now, hold back); section 6.1: the
splitter holds back tails below the cap until the timeout fires, which
then flushes the pending tail anyway.  Each step returns the new buffer
and the flushes performed. -/
def batcherStep (split : List Message → List Message × List Message)
    (buf : List Message) : BatchEvent → List Message × List (List Message)
  | .add m =>
    let buf := buf ++ [m]
    let s := split buf
    (s.2, if s.1.isEmpty then [] else [s.1])
  | .timeout => ([], if buf.isEmpty then [] else [buf])

/-- Runs the Batcher model over a sequence of events, collecting every
flush handed to the batch handler. -/
def batcherRun (split : List Message → List Message × List Message)
    (buf : List Message) : List BatchEvent → List Message × List (List Message)
  | [] => (buf, [])
  | e :: evs =>
    let s := batcherStep split buf e
    let rest := batcherRun split s.1 evs
    (rest.1, s.2 ++ rest.2)

/-- Fifteen distinct completed messages for the batch-flushing
scenario. -/
def scenarioMsgs : List Message :=
  (List.range 15).map fun i => { reservedCount := i }

/-- Event sequence of the batch-flushing scenario: 15 completions
arrive, then the flush timeout fires. -/
def scenarioEvents : List BatchEvent :=
  scenarioMsgs.map BatchEvent.add ++ [BatchEvent.timeout]

/-- Flushes the delete batcher performs in the scenario, using the
splitter of the IronMQ adapter. -/
def scenarioFlushes : List (List Message) :=
  (batcherRun splitDeleteBatch [] scenarioEvents).2

/-- Backend `DeleteReservedMessages` calls in the scenario: every flush
is handed to `deleteBatch` with unwrapping the identity and a backend
that succeeds. -/
def scenarioBackendCalls : List (List MqMessage) :=
  (scenarioFlushes.map fun fl => (deleteBatch Except.ok (fun _ => none) fl).2).flatten

/-- Options used to instantiate witness statements. -/
def testOptions : Options :=
  { name := "q", reservationTimeout := 30 * second, waitTimeout := 10 * second }

end IronMQ

namespace IronMQ

/-- Helper: an error accepted by the retry guard is backend-transient in
the sense of the specification taxonomy. -/
theorem backendTransient_of_isRetryable {e : GoErr}
    (h : isRetryable e = true) : BackendTransient e := by
  cases e with
  | httpError s m => simpa [isRetryable, BackendTransient] using h
  | netTimeout => trivial
  | other m => simp [isRetryable] at h

/-- Helper: retry always invokes the operation at least once. -/
theorem retry_pos (fn : Nat → Option GoErr) : 1 ≤ (retry fn).2 := by
  unfold retry
  rcases fn 0 with _ | e0
  · simp
  · dsimp only
    split
    · rcases fn 1 with _ | e1
      · simp
      · dsimp only
        split <;> simp
    · simp

/-- C2: the retry helper invokes the operation at most 3 times (and at
least once), the returned error is exactly the outcome of the last
invocation (hence nil as soon as an attempt succeeds, and the last
error when the attempts are exhausted or the error is not retried), and
a re-invocation happens only when the previous attempt failed with a
backend-transient error. -/
theorem retry_spec (fn : Nat → Option GoErr) :
    1 ≤ (retry fn).2 ∧ (retry fn).2 ≤ 3 ∧
    (retry fn).1 = fn ((retry fn).2 - 1) ∧
    ∀ i, i + 1 < (retry fn).2 → ∃ e, fn i = some e ∧ BackendTransient e := by
  cases h0 : fn 0 with
  | none =>
    have hr : retry fn = (none, 1) := by simp [retry, h0]
    rw [hr]
    refine ⟨le_refl 1, by norm_num, by simp [h0], ?_⟩
    intro i hi
    omega
  | some e0 =>
    cases hre0 : isRetryable e0 with
    | false =>
      have hr : retry fn = (some e0, 1) := by simp [retry, h0, hre0]
      rw [hr]
      refine ⟨le_refl 1, by norm_num, by simp [h0], ?_⟩
      intro i hi
      omega
    | true =>
      cases h1 : fn 1 with
      | none =>
        have hr : retry fn = (none, 2) := by simp [retry, h0, hre0, h1]
        rw [hr]
        refine ⟨by norm_num, by norm_num, by simp [h1], ?_⟩
        intro i hi
        have hi0 : i = 0 := by omega
        subst hi0
        exact ⟨e0, h0, backendTransient_of_isRetryable hre0⟩
      | some e1 =>
        cases hre1 : isRetryable e1 with
        | false =>
          have hr : retry fn = (some e1, 2) := by
            simp [retry, h0, hre0, h1, hre1]
          rw [hr]
          refine ⟨by norm_num, by norm_num, by simp [h1], ?_⟩
          intro i hi
          have hi0 : i = 0 := by omega
          subst hi0
          exact ⟨e0, h0, backendTransient_of_isRetryable hre0⟩
        | true =>
          have hr : retry fn = (fn 2, 3) := by
            simp [retry, h0, hre0, h1, hre1]
          rw [hr]
          refine ⟨by norm_num, by norm_num, rfl, ?_⟩
          intro i hi
          have hi1 : i = 0 ∨ i = 1 := by omega
          rcases hi1 with hi0 | hi0 <;> subst hi0
          · exact ⟨e0, h0, backendTransient_of_isRetryable hre0⟩
          · exact ⟨e1, h1, backendTransient_of_isRetryable hre1⟩

/-- Witness for C2 at a concrete operation: one transient failure, then
success. -/
theorem retry_spec_witness :
    (retry (fun i => if i = 0 then some (GoErr.httpError 503 "x")
      else none)).2 ≤ 3 :=
  (retry_spec _).2.1

end IronMQ

namespace IronMQ

/-- C4: the delete-batch splitter partitions its input: flush-now and
hold-back concatenate back to the input list; a batch of fewer than 10
messages is held back whole with nothing flushed, and a batch of 10 or
more messages is flushed whole with nothing held back. -/
theorem splitDeleteBatch_partition (msgs : List Message) :
    (splitDeleteBatch msgs).1 ++ (splitDeleteBatch msgs).2 = msgs ∧
    (msgs.length < 10 → splitDeleteBatch msgs = ([], msgs)) ∧
    (10 ≤ msgs.length → splitDeleteBatch msgs = (msgs, [])) := by
  unfold splitDeleteBatch
  by_cases h : 10 ≤ msgs.length
  · rw [if_pos h]
    exact ⟨by simp, fun h2 => absurd h (by omega), fun _ => rfl⟩
  · rw [if_neg h]
    exact ⟨by simp, fun _ => rfl, fun h2 => absurd h2 h⟩

/-- Witness for C4 at the 15-message scenario batch. -/
theorem splitDeleteBatch_partition_witness :
    10 ≤ scenarioMsgs.length ∧ splitDeleteBatch scenarioMsgs = (scenarioMsgs, []) :=
  ⟨by decide, (splitDeleteBatch_partition scenarioMsgs).2.2 (by decide)⟩

/-- C8: deleteBatch on an empty batch returns a non-nil error and makes
no backend bulk delete call. -/
theorem deleteBatch_empty (unwrap : Message → Except GoErr Message)
    (backendDelete : Nat → Option GoErr) :
    (deleteBatch unwrap backendDelete []).1 ≠ none ∧
    (deleteBatch unwrap backendDelete []).2 = [] := by
  simp [deleteBatch]

/-- C1: with the delete-batch cap of 10 and 15 completed messages,
exactly two backend bulk delete calls occur, one carrying 10 messages
and one carrying 5; no backend call carries more than 10 messages; and
before the timeout fires only the batch of 10 has been flushed, so the
batch of 5 goes out with the timeout. -/
theorem batchFlushing :
    scenarioBackendCalls.length = 2 ∧
    scenarioBackendCalls.map List.length = [10, 5] ∧
    (∀ c ∈ scenarioBackendCalls, c.length ≤ 10) ∧
    (batcherRun splitDeleteBatch []
      (scenarioMsgs.map BatchEvent.add)).2.map List.length = [10] := by
  decide

/-- C5: Queue.Delete reports success when the backend delete succeeds
or ultimately fails with an HTTP 404 response error, and returns the
final error of every other failure. -/
theorem delete_swallows404 (backendDelete : Nat → Option GoErr) :
    ((retry backendDelete).1 = none → Delete backendDelete = none) ∧
    (∀ m, (retry backendDelete).1 = some (GoErr.httpError 404 m) →
      Delete backendDelete = none) ∧
    (∀ e, (retry backendDelete).1 = some e →
      (∀ m, e ≠ GoErr.httpError 404 m) → Delete backendDelete = some e) := by
  refine ⟨?_, ?_, ?_⟩
  · intro h
    simp [Delete, h]
  · intro m h
    simp [Delete, h]
  · intro e h hne
    cases e with
    | httpError s m =>
      by_cases hs : s = 404
      · subst hs
        exact absurd rfl (hne m)
      · simp [Delete, h, hs]
    | netTimeout => simp [Delete, h]
    | other m => simp [Delete, h]

/-- Witness for C5 at a backend whose delete persistently answers 404:
the deletion is treated as success. -/
theorem delete_swallows404_witness :
    Delete (fun _ => some (GoErr.httpError 404 "gone")) = none :=
  (delete_swallows404 _).2.1 "gone" (by decide)

/-- C6: CloseTimeout stops the processor only when one exists, always
switches the delete batcher to synchronous mode and closes the delete
queue afterwards (even when stopping failed), and returns the first
error: the stop error when a processor exists and stopping failed,
otherwise the close error; nil exactly when every step succeeded. -/
theorem closeTimeout_firstErr (hasProcessor : Bool)
    (stopErr closeErr : Option GoErr) :
    (CloseTimeout hasProcessor stopErr closeErr).2 =
      (if hasProcessor then [CloseAction.stopProcessor] else []) ++
        [CloseAction.setSync true, CloseAction.closeDelQueue] ∧
    (CloseTimeout hasProcessor stopErr closeErr).1 =
      (if hasProcessor && stopErr.isSome then stopErr else closeErr) ∧
    ((CloseTimeout hasProcessor stopErr closeErr).1 = none ↔
      (hasProcessor = true → stopErr = none) ∧ closeErr = none) := by
  cases hasProcessor <;> cases stopErr <;> cases closeErr <;>
    simp [CloseTimeout]

/-- C7: when encoding the message arguments fails, Queue.Add returns
the codec error and the add-stage queue is unchanged, for every
behaviour of the add-stage queue; on success the Compress flag is set
from the queue options and the wrapped message is handed to the Add of
the add-stage memory queue, whose outcome — staged, or rejected with a
duplicate-name or buffer-full error — becomes the outcome of
Queue.Add; in particular when the stage accepts (the normal path of
spec section 4.2, appending and returning nil), Queue.Add returns nil
and the wrapped message is appended to the add-stage queue. -/
theorem add_codecError (encodeArgs : Message → Except GoErr Message)
    (stageAdd : WrappedMessage → List WrappedMessage →
      Option GoErr × List WrappedMessage)
    (opt : Options) (msg : Message) (addQueue : List WrappedMessage) :
    (∀ e, encodeArgs msg = .error e →
      Add encodeArgs stageAdd opt msg addQueue = (some e, addQueue)) ∧
    (∀ encoded, encodeArgs msg = .ok encoded →
      Add encodeArgs stageAdd opt msg addQueue =
        stageAdd ⟨{ encoded with compress := opt.compress }⟩ addQueue) ∧
    (∀ encoded, encodeArgs msg = .ok encoded →
      Add encodeArgs (fun w q => (none, q ++ [w])) opt msg addQueue =
        (none, addQueue ++ [⟨{ encoded with compress := opt.compress }⟩])) := by
  refine ⟨?_, ?_, ?_⟩
  · intro e he
    simp [Add, he]
  · intro encoded he
    simp [Add, he]
  · intro encoded he
    simp [Add, he]

/-- Witness for C7 at a failing codec over the accepting stage: the
error is returned and the add-stage queue stays empty. -/
theorem add_codecError_witness :
    Add (fun _ => Except.error (GoErr.other "codec"))
      (fun w q => (none, q ++ [w])) testOptions {} [] =
      (some (GoErr.other "codec"), []) :=
  (add_codecError _ _ _ _ _).1 _ rfl

end IronMQ

namespace IronMQ

/-- Helper: the capped count is the minimum of the request and 100. -/
theorem effectiveCount_eq_min (n : Int) : effectiveCount n = min n 100 := by
  unfold effectiveCount
  split <;> omega

/-- Helper: the capped count never exceeds 100. -/
theorem effectiveCount_le (n : Int) : effectiveCount n ≤ 100 := by
  unfold effectiveCount
  split <;> omega

/-- C9: ReserveN hands the backend long-poll the effective count
min(n, 100), and a successful call returns at most 100 messages
whenever the backend long-poll returns no more messages than the
requested count. -/
theorem reserveN_cap (longPoll : Int → Int → Int → Except GoErr (List MqMessage))
    (opt : Options) (n : Int)
    (hbound : ∀ k r w ms, longPoll k r w = .ok ms → (ms.length : Int) ≤ max k 0) :
    (ReserveN longPoll opt n).requested = min n 100 ∧
    (ReserveN longPoll opt n).requested ≤ 100 ∧
    ∀ msgs, (ReserveN longPoll opt n).result = .ok msgs →
      (msgs.length : Int) ≤ 100 := by
  have key : (ReserveN longPoll opt n).requested = effectiveCount n ∧
      ∀ msgs, (ReserveN longPoll opt n).result = .ok msgs →
        (msgs.length : Int) ≤ 100 := by
    unfold ReserveN
    cases hlp : longPoll (effectiveCount n) (Int.tdiv opt.reservationTimeout second)
        (Int.tdiv opt.waitTimeout second) with
    | error e =>
      simp only [hlp]
      cases e with
      | httpError s m =>
        dsimp only
        split_ifs <;> refine ⟨rfl, fun msgs hmsgs => ?_⟩
        · injection hmsgs with h
          subst h
          norm_num
        · exact absurd hmsgs (by simp)
        · exact absurd hmsgs (by simp)
        · exact absurd hmsgs (by simp)
      | netTimeout =>
        dsimp only
        exact ⟨by trivial, fun msgs hmsgs => absurd hmsgs (by simp)⟩
      | other m =>
        dsimp only
        exact ⟨by trivial, fun msgs hmsgs => absurd hmsgs (by simp)⟩
    | ok mqMsgs =>
      simp only [hlp]
      refine ⟨by trivial, fun msgs hmsgs => ?_⟩
      injection hmsgs with h
      subst h
      have hb := hbound _ _ _ _ hlp
      have hc := effectiveCount_le n
      simp only [List.length_map]
      omega
  refine ⟨key.1.trans (effectiveCount_eq_min n), ?_, key.2⟩
  rw [key.1]
  exact effectiveCount_le n

/-- Witness for C9: a request of 250 is capped to 100. -/
theorem reserveN_cap_witness :
    (ReserveN (fun _ _ _ => (Except.ok [] : Except GoErr (List MqMessage)))
      testOptions 250).requested = min 250 100 :=
  (reserveN_cap _ testOptions 250 (fun k r w ms h => by
    injection h with h2
    subst h2
    simp)).1

end IronMQ

namespace IronMQ

/-- C3: when the backend long-poll fails with HTTP 404 "Queue not
found", ReserveN invokes createQueue (lazy creation) and surfaces the
error, and the fetch loop then performs another ReserveN call, retrying
the reserve operation.  The fetch loop is modelled from the spec
(processor.go is not under src/); lps i is the backend long-poll
behaviour during the (i+1)-th ReserveN call. -/
theorem reserveN_queueNotFound
    (lps : Nat → Int → Int → Int → Except GoErr (List MqMessage))
    (opt : Options) (n : Int) (m : String)
    (h404 : lps 0 (effectiveCount n) (Int.tdiv opt.reservationTimeout second)
        (Int.tdiv opt.waitTimeout second) = .error (.httpError 404 m))
    (hq : strContains m "Queue not found" = true)
    (hnm : strContains m "Message not found" = false) :
    (ReserveN (lps 0) opt n).createdQueue = true ∧
    (ReserveN (lps 0) opt n).result = .error (.httpError 404 m) ∧
    ∃ s, fetcherRun (fun i => ReserveN (lps i) opt n) 2 0 =
      [FetchStep.backedOff (GoErr.httpError 404 m), s] := by
  have h1 : ReserveN (lps 0) opt n =
      { result := .error (.httpError 404 m), createdQueue := true,
        requested := effectiveCount n } := by
    unfold ReserveN
    simp only [h404]
    simp [hnm, hq]
  refine ⟨by rw [h1], by rw [h1], ?_⟩
  cases hr1 : (ReserveN (lps 1) opt n).result with
  | error e =>
    refine ⟨FetchStep.backedOff e, ?_⟩
    show fetcherRun (fun i => ReserveN (lps i) opt n) (1 + 1) 0 = _
    rw [fetcherRun, h1]
    dsimp only
    rw [fetcherRun, hr1]
    rfl
  | ok msgs =>
    refine ⟨FetchStep.fetched msgs, ?_⟩
    show fetcherRun (fun i => ReserveN (lps i) opt n) (1 + 1) 0 = _
    rw [fetcherRun, h1]
    dsimp only
    rw [fetcherRun, hr1]
    rfl

end IronMQ

namespace IronMQ

/-- Witness for C3 at a backend answering 404 "Queue not found": the
queue gets created. -/
theorem reserveN_queueNotFound_witness :
    (ReserveN (fun _ _ _ => Except.error (GoErr.httpError 404 "Queue not found"))
      testOptions 10).createdQueue = true :=
  (reserveN_queueNotFound
    (fun _ _ _ _ => Except.error (GoErr.httpError 404 "Queue not found"))
    testOptions 10 "Queue not found" rfl (by decide) (by decide)).1

/-- C10: Release converts the redelivery delay of the message to whole
seconds by the truncating integer division by one second; every backend
release call carries that value; a nonnegative delay strictly shorter
than one second is released with zero delay, and in general the
fractional part of the delay is discarded: the seconds value s
satisfies s·second ≤ delay < (s+1)·second. -/
theorem release_truncatesSeconds (backendRelease : Int → Nat → Option GoErr)
    (msg : Message) (hnn : 0 ≤ msg.delay) :
    (Release backendRelease msg).2 ≠ [] ∧
    ∀ s ∈ (Release backendRelease msg).2,
      s = Int.tdiv msg.delay second ∧
      second * s ≤ msg.delay ∧ msg.delay < second * (s + 1) ∧
      (msg.delay < second → s = 0) := by
  have hpos : 1 ≤ (retry (backendRelease (Int.tdiv msg.delay second))).2 :=
    retry_pos _
  have hsec : Int.tdiv msg.delay second = msg.delay / second :=
    Int.tdiv_eq_ediv hnn (by norm_num [second])
  constructor
  · intro hemp
    have hlen := congrArg List.length hemp
    simp [Release] at hlen
    omega
  · intro s hs
    simp only [Release] at hs
    have hs2 : s = Int.tdiv msg.delay second := List.eq_of_mem_replicate hs
    subst hs2
    refine ⟨rfl, ?_, ?_, ?_⟩
    · rw [hsec]
      simp only [second]
      omega
    · rw [hsec]
      simp only [second]
      omega
    · intro hlt
      rw [hsec]
      simp only [second] at hlt ⊢
      omega

/-- Witness for C10 at a delay of one and a half seconds: a release
call happens. -/
theorem release_truncatesSeconds_witness :
    (Release (fun _ _ => none) ({ delay := 1500000000 } : Message)).2 ≠ [] :=
  (release_truncatesSeconds (fun _ _ => none) _ (by decide)).1

end IronMQ
